import Mathlib

/-!
Verification of the request-admission and middleware-pipeline core of the
`codersaadi/go-micro` repository: a shallow embedding in Lean 4 of the
rate-limiter registry (`pkg/micro` rate limiter), the error-normalization
helpers, and the default middleware chain of `pkg/micro` / `user-service.go`,
together with proofs and refutations of the specification's claims.

Conventions of the embedding:
- Go maps keyed by strings are association lists `List (String × α)`
  (Go map keys are unique; where a proof needs it, uniqueness is an
  explicit `Nodup` hypothesis discharged by the registry invariants).
- `time.Time` / `time.Duration` are `Int` instants / spans.
- Heap-allocated `*APIError` values live in an explicit heap
  (`List APIError`) indexed by allocation order; a Go pointer is the
  index of its object.  This makes in-place mutation and aliasing of the
  shared `ErrInternalServer` sentinel observable.
- A panicking computation is an `Except`-style error value threaded
  alongside the state (the state survives unwinding, as in Go).
-/

set_option autoImplicit false

namespace GoMicro

/-! ## Definitions: the shallow embedding of the program -/

/-- Lookup in an association list (Go `m[key]`). -/
def lookupKey {α : Type} (k : String) : List (String × α) → Option α
  | [] => none
  | (k', v) :: rest => if k' = k then some v else lookupKey k rest

/-- Update the value stored at `k`, if present (in-place mutation of a map
entry's pointee). -/
def updateKey {α : Type} (k : String) (f : α → α) : List (String × α) → List (String × α)
  | [] => []
  | (k', v) :: rest => if k' = k then (k', f v) :: rest else (k', v) :: updateKey k f rest

/-- `RateLimiterConfig`.  `RequestsPerS` is a float in Go; it only feeds the
token-bucket refill rate of `golang.org/x/time/rate`, which no claim
exercises (each request is processed at one frozen instant), so it is kept
as an `Int` here. -/
structure RateLimiterConfig where
  enabled : Bool
  requestsPerS : Int
  burst : Nat
  ttl : Int
  strategy : String
deriving Repr, DecidableEq

/-- `visitorLimiter`: one entry of the `limiters` map.  The pointed-to
`rate.Limiter` object is identified by its allocation id `lid`; its token
count is the bucket state (`rate.NewLimiter(rate, burst)` starts with
`burst` tokens). -/
structure Bucket where
  lid : Nat
  tokens : Nat
  lastSeen : Int
deriving Repr, DecidableEq

/-- The `rateLimiter.limiters` map together with the allocation counter for
fresh `rate.Limiter` objects. -/
structure RegState where
  buckets : List (String × Bucket)
  nextId : Nat
deriving Repr, DecidableEq

/-- The registry of a freshly constructed `rateLimiter` (empty map). -/
def regInit : RegState := { buckets := [], nextId := 0 }

/-- `rateLimiter.getLimiter(key)`: under the map lock, look up the visitor;
if absent, allocate a fresh limiter with the configured burst and record it
with `lastSeen = now`; otherwise update `lastSeen` and return the stored
limiter.  The returned handle is the limiter's allocation id. -/
def getLimiter (cfg : RateLimiterConfig) (now : Int) (rs : RegState) (key : String) :
    Nat × RegState :=
  match lookupKey key rs.buckets with
  | none =>
      (rs.nextId,
       { buckets := rs.buckets ++ [(key, { lid := rs.nextId, tokens := cfg.burst, lastSeen := now })],
         nextId := rs.nextId + 1 })
  | some v =>
      (v.lid, { rs with buckets := updateKey key (fun b => { b with lastSeen := now }) rs.buckets })

/-- `limiter.Allow()` on the bucket stored at `key` (the handle returned by
`getLimiter` is exactly that bucket, see `getLimiter_lookup_after`):
consume one token if any remain.  Refill is proportional to elapsed time;
at the single frozen instant of one request no time elapses, so no tokens
are added. -/
def allowAt (rs : RegState) (key : String) : Bool × RegState :=
  match lookupKey key rs.buckets with
  | none => (false, rs)
  | some b =>
      if 0 < b.tokens then
        (true, { rs with buckets := updateKey key (fun b' => { b' with tokens := b'.tokens - 1 }) rs.buckets })
      else (false, rs)

/-- One tick of `cleanupStaleVisitors`: delete every visitor with
`time.Since(v.lastSeen) > ttl`, i.e. keep those with `now - lastSeen ≤ ttl`. -/
def sweepOnce (ttl now : Int) (buckets : List (String × Bucket)) : List (String × Bucket) :=
  buckets.filter (fun kv => decide (¬(now - kv.2.lastSeen > ttl)))

/-- The rate-limiter configuration `cmd/server.go` installs by default:
ip strategy, 10 requests/s, burst 20, ttl one hour. -/
def cfgIpLimiter : RateLimiterConfig :=
  { enabled := true, requestsPerS := 10, burst := 20, ttl := 3600, strategy := "ip" }

/-- A sequence of `getLimiter` calls `(key, now)`, returning the handle of each
call in order together with the final registry. -/
def runGetLimiters (cfg : RateLimiterConfig) (rs : RegState) :
    List (String × Int) → List Nat × RegState
  | [] => ([], rs)
  | (k, t) :: rest =>
      let r := getLimiter cfg t rs k
      let rr := runGetLimiters cfg r.2 rest
      (r.1 :: rr.1, rr.2)

/-- Go compares context keys by dynamic type and value.  The typed
`contextKey("request_id")` (stored by `requestIDMiddleware`) and the plain
string `"request_id"` (queried by `getRequestIDFromContext`) are distinct
keys. -/
inductive CtxKey
  | typed (s : String)
  | raw (s : String)
deriving Repr, DecidableEq

/-- `contextKeyRequestID contextKey = "request_id"`. -/
def contextKeyRequestID : CtxKey := CtxKey.typed "request_id"

/-- A request context: `context.WithValue` chains, child first. -/
abbrev Ctx := List (CtxKey × String)

/-- `context.WithValue(parent, k, v)`. -/
def ctxWithValue (ctx : Ctx) (k : CtxKey) (v : String) : Ctx := (k, v) :: ctx

/-- `ctx.Value(k)`: the innermost `WithValue` wins. -/
def ctxValue : Ctx → CtxKey → Option String
  | [], _ => none
  | (k', v) :: rest, k => if k' = k then some v else ctxValue rest k

/-- `http.Header.Set`: replace any existing values for the key. -/
def setHeader (hs : List (String × String)) (k v : String) : List (String × String) :=
  hs.filter (fun p => decide (p.1 ≠ k)) ++ [(k, v)]

/-- `APIError` (pkg/micro errors file).  `Details` and `RequestID` carry
`omitempty` JSON tags. -/
structure APIError where
  code : Nat
  message : String
  details : Option (List (String × String))
  requestID : String
deriving Repr, DecidableEq

/-- Heap of `*APIError` objects; a pointer is the index of its object in
allocation order. -/
abbrev Heap := List APIError

/-- `NewAPIError(code, message, details...)`: allocate a fresh object. -/
def newAPIError (h : Heap) (code : Nat) (message : String)
    (details : Option (List (String × String))) : Heap × Nat :=
  (h ++ [{ code := code, message := message, details := details, requestID := "" }], h.length)

/-- The heap after the package-level
`var ErrInternalServer = NewAPIError(500, "internal server error")`:
the sentinel is the object at index 0. -/
def heapInit : Heap := (newAPIError [] 500 "internal server error" none).1

/-- The pointer held by the package-level `ErrInternalServer` variable. -/
def errInternalServerRef : Nat := 0

/-- In-place mutation of the object a pointer refers to. -/
def heapModify (h : Heap) (ref : Nat) (f : APIError → APIError) : Heap :=
  match h[ref]? with
  | some e => h.set ref (f e)
  | none => h

/-- An `error` value reaching `handleError`: either one that `errors.As`
resolves to a `*APIError` (the pointer), or any other error. -/
inductive GoErr
  | api (ref : Nat)
  | plain (msg : String)
deriving Repr, DecidableEq

/-- `App.normalizeError`: resolve `err` to a `*APIError` — allocating a fresh
generic 500 when it is not one — then mutate THAT object in place: set
`RequestID`, and clear `Details` unless `LogLevel` is `"debug"`.  The
returned pointer is the resolved object itself, not a copy. -/
def normalizeError (logLevel : String) (h : Heap) (err : GoErr) (requestID : String) :
    Heap × Nat :=
  let ra :=
    match err with
    | .api p => (h, p)
    | .plain _ => newAPIError h 500 "internal server error" none
  (heapModify ra.1 ra.2 (fun e =>
      let e1 := { e with requestID := requestID }
      if logLevel ≠ "debug" then { e1 with details := none } else e1),
   ra.2)

/-- The shape of the `http.ResponseWriter` passed down the chain: the server's
base writer, possibly wrapped by `loggingResponseWriter` values (created by
the metrics and logging middlewares, each capturing the request context at
wrap time). -/
inductive WShape
  | base
  | logging (ctx : Ctx) (inner : WShape)
deriving Repr, DecidableEq

/-- `getRequestIDFromContext` (user-service.go): blindly asserts
`w.(*loggingResponseWriter)` — a panic when the writer is not wrapped — and
then reads the UNTYPED string key `"request_id"` from the captured context,
falling back to `""`. -/
def getRequestIDFromContext : WShape → Except String String
  | .logging ctx _ =>
      Except.ok (match ctxValue ctx (CtxKey.raw "request_id") with
        | some v => v
        | none => "")
  | .base =>
      Except.error "interface conversion: ResponseWriter is not *loggingResponseWriter"

/-- The JSON object `json.NewEncoder(w).Encode(apiError)` writes: `code` and
`message` always; `details` and `request_id` are `omitempty`, so they appear
only when non-empty. -/
structure ErrorBodyJSON where
  code : Nat
  message : String
  details : Option (List (String × String))
  request_id : Option String
deriving Repr, DecidableEq

def encodeAPIError (e : APIError) : ErrorBodyJSON :=
  { code := e.code, message := e.message,
    details := match e.details with | some [] => none | d => d,
    request_id := if e.requestID = "" then none else some e.requestID }

/-- The observable response: headers (shared by all writer layers), the status
code of the first `WriteHeader` call, and the JSON error body, if written. -/
structure Resp where
  headers : List (String × String)
  status : Option Nat
  body : Option ErrorBodyJSON
deriving Repr, DecidableEq

def respInit : Resp := { headers := [], status := none, body := none }

/-- `WriteHeader`: the first written status wins (later calls are
superfluous and ignored by net/http). -/
def writeStatus (resp : Resp) (code : Nat) : Resp :=
  match resp.status with
  | some _ => resp
  | none => { resp with status := some code }

/-- `heapGet`: dereference a pointer.  Pointers produced by `normalizeError`
and `newAPIError` are always live; the default is unreachable. -/
def heapGet (h : Heap) (ref : Nat) : APIError :=
  (h[ref]?).getD { code := 0, message := "", details := none, requestID := "" }

/-- `App.handleError`: read the request id off the writer (this is where the
blind type assertion may panic), normalize the error, then set
`Content-Type`, write the status and encode the error body.  Returns the
heap, the response and the normalized pointer, or the panic value. -/
def handleError (logLevel : String) (h : Heap) (w : WShape) (resp : Resp) (err : GoErr) :
    Except String (Heap × Resp × Nat) :=
  match getRequestIDFromContext w with
  | .error p => .error p
  | .ok reqID =>
      let hr := normalizeError logLevel h err reqID
      let e := heapGet hr.1 hr.2
      let resp1 := { resp with headers := setHeader resp.headers "Content-Type" "application/json" }
      let resp2 := writeStatus resp1 e.code
      let resp3 := { resp2 with body := some (encodeAPIError e) }
      .ok (hr.1, resp3, hr.2)

/-- The stages of the default chain (plus the terminal route handler). -/
inductive Stage
  | cors
  | requestID
  | securityHeaders
  | rateLimit
  | metrics
  | logging
  | recovery
  | timeout
  | terminal
deriving Repr, DecidableEq

/-- The slice of `Config` the pipeline reads. -/
structure AppConfig where
  logLevel : String
  metricsEnabled : Bool
  corsEnabled : Bool
  rateLimiter : RateLimiterConfig
deriving Repr, DecidableEq

/-- Whole-process mutable state threaded through one request, plus ghost
observations (`trace`: stages entered in order; `handlerCalls`: terminal
handler invocations; `pending`/`pendingAtHandler`: the `App.wg` counter and
its value observed when the terminal handler starts). -/
structure SysState where
  reg : RegState
  heap : Heap
  ridCounter : Nat
  handlerCalls : Nat
  pending : Nat
  pendingAtHandler : Option Nat
  trace : List Stage
deriving Repr, DecidableEq

def stInit : SysState :=
  { reg := regInit, heap := heapInit, ridCounter := 0, handlerCalls := 0,
    pending := 0, pendingAtHandler := none, trace := [] }

/-- An inbound request: the headers the pipeline reads, the arrival instant
(`time.Now` during processing) and the request context. -/
structure Request where
  forwardedFor : String
  remoteAddr : String
  authorization : String
  path : String
  now : Int
  ctx : Ctx
deriving Repr, DecidableEq

/-- Record a stage entry in the ghost trace. -/
def tagStage (s : Stage) (st : SysState) : SysState := { st with trace := st.trace ++ [s] }

/-- The result of running a handler: final state, response writer contents,
and the in-flight panic value if the handler panicked (the state survives
stack unwinding, as in Go). -/
abbrev HResult := SysState × Resp × Option String

/-- `http.Handler` over the embedded state. -/
abbrev HandlerM := Request → WShape → SysState → Resp → HResult

/-- `xid.New().String()`: successive ids are distinct; modelled by a counter. -/
def genRequestID (st : SysState) : String × SysState :=
  ("rid" ++ toString st.ridCounter, { st with ridCounter := st.ridCounter + 1 })

/-- `requestIDMiddleware`: generate an id, set the `X-Request-ID` response
header, store the id in the request context under the TYPED key. -/
def requestIDMiddleware (next : HandlerM) : HandlerM := fun r w st resp =>
  let st1 := tagStage Stage.requestID st
  let g := genRequestID st1
  let resp1 := { resp with headers := setHeader resp.headers "X-Request-ID" g.1 }
  let r1 := { r with ctx := ctxWithValue r.ctx contextKeyRequestID g.1 }
  next r1 w g.2 resp1

/-- `securityHeadersMiddleware`: set the four security headers, pass through. -/
def securityHeadersMiddleware (next : HandlerM) : HandlerM := fun r w st resp =>
  let st1 := tagStage Stage.securityHeaders st
  let hs := setHeader (setHeader (setHeader (setHeader resp.headers
    "X-Content-Type-Options" "nosniff")
    "X-Frame-Options" "DENY")
    "X-XSS-Protection" "1; mode=block")
    "Strict-Transport-Security" "max-age=63072000; includeSubDomain"
  next r w st1 { resp with headers := hs }

/-- `App.getClientIdentifier`: derive the bucket key from the configured
strategy. -/
def getClientIdentifier (cfg : AppConfig) (r : Request) : String :=
  match cfg.rateLimiter.strategy with
  | "ip" => let ip := r.forwardedFor; if ip = "" then r.remoteAddr else ip
  | "token" => r.authorization
  | "global" => "global"
  | _ => r.remoteAddr

/-- `rateLimiterMiddleware`: skip when disabled or when a non-global strategy
yields an empty client id; otherwise acquire the bucket and consult
`Allow()`.  On deny: read the request id from the TYPED context key (for the
log line), set `Retry-After`, and route a fresh 429 `APIError` through
`JSONError = handleError`. -/
def rateLimiterMiddleware (cfg : AppConfig) (next : HandlerM) : HandlerM := fun r w st resp =>
  let st1 := tagStage Stage.rateLimit st
  if ¬cfg.rateLimiter.enabled then next r w st1 resp
  else
    let clientID := getClientIdentifier cfg r
    if clientID = "" ∧ cfg.rateLimiter.strategy ≠ "global" then next r w st1 resp
    else
      let gl := getLimiter cfg.rateLimiter r.now st1.reg clientID
      let al := allowAt gl.2 clientID
      let st2 := { st1 with reg := al.2 }
      if al.1 then next r w st2 resp
      else
        match ctxValue r.ctx contextKeyRequestID with
        | none => (st2, resp, some "interface conversion: nil context value is not string")
        | some _rid =>
            let na := newAPIError st2.heap 429 "Rate limit exceeded" none
            let resp1 := { resp with headers := setHeader resp.headers "Retry-After" "60" }
            match handleError cfg.logLevel na.1 w resp1 (GoErr.api na.2) with
            | .error p => ({ st2 with heap := na.1 }, resp1, some p)
            | .ok out => ({ st2 with heap := out.1 }, out.2.1, none)

/-- `metricsMiddleware`: wrap the writer in a `loggingResponseWriter`
capturing the request context, run the rest, then update the Prometheus
counters (not modelled; skipped when a panic is unwinding). -/
def metricsMiddleware (next : HandlerM) : HandlerM := fun r w st resp =>
  let st1 := tagStage Stage.metrics st
  next r (WShape.logging r.ctx w) st1 resp

/-- `logMiddleware`: wrap the writer in a `loggingResponseWriter` capturing
the request context, run the rest, then emit the structured log line (no
observable effect here; skipped when a panic is unwinding). -/
def logMiddleware (next : HandlerM) : HandlerM := fun r w st resp =>
  let st1 := tagStage Stage.logging st
  next r (WShape.logging r.ctx w) st1 resp

/-- `recoveryMiddleware`: run the rest under a deferred `recover()`; on a
panic, read the request id from the TYPED context key, log, and route a
fresh 500 `APIError` through `handleError` on the writer it received. -/
def recoveryMiddleware (cfg : AppConfig) (next : HandlerM) : HandlerM := fun r w st resp =>
  let st1 := tagStage Stage.recovery st
  let out := next r w st1 resp
  match out.2.2 with
  | none => out
  | some _panicVal =>
      match ctxValue r.ctx contextKeyRequestID with
      | none => (out.1, out.2.1, some "interface conversion: nil context value is not string")
      | some _rid =>
          let na := newAPIError out.1.heap 500 "Internal server error" none
          match handleError cfg.logLevel na.1 w out.2.1 (GoErr.api na.2) with
          | .error p => ({ out.1 with heap := na.1 }, out.2.1, some p)
          | .ok hr => ({ out.1 with heap := hr.1 }, hr.2.1, none)

/-- `timeoutMiddleware`: derive a per-request deadline context and pass
through (the deadline itself is invisible to every claim considered here). -/
def timeoutMiddleware (next : HandlerM) : HandlerM := fun r w st resp =>
  next r w (tagStage Stage.timeout st) resp

/-- The gorilla `handlers.CORS` middleware registered directly on the Router:
for an ordinary request it sets CORS response headers as configured and
passes through (header details of the external library are not modelled). -/
def corsMiddleware (next : HandlerM) : HandlerM := fun r w st resp =>
  next r w (tagStage Stage.cors st) resp

/-- What the business handler passed to `App.Handle` does for a request. -/
inductive BizResult
  | ok
  | fail (e : GoErr)
  | abort (msg : String)
deriving Repr, DecidableEq

/-- The terminal business handler (external collaborator). -/
abbrev BizHandler := Request → BizResult

/-- The route function `App.Handle` registers: invoke the business handler
with the request context; route a returned error through `handleError`; a
panic propagates.  `App.Handle` performs NO pending-count bookkeeping —
`App.wg` is declared and awaited but never incremented anywhere. -/
def terminalHandler (cfg : AppConfig) (biz : BizHandler) : HandlerM := fun r w st resp =>
  let st1 := tagStage Stage.terminal
    { st with handlerCalls := st.handlerCalls + 1, pendingAtHandler := some st.pending }
  match biz r with
  | .ok => (st1, resp, none)
  | .abort m => (st1, resp, some m)
  | .fail e =>
      match handleError cfg.logLevel st1.heap w resp e with
      | .error p => (st1, resp, some p)
      | .ok out => ({ st1 with heap := out.1 }, out.2.1, none)

/-- The middlewares `setupDefaultMiddleware` registers through `a.Use`, in
registration order. -/
def appMiddlewares (cfg : AppConfig) : List Stage :=
  [Stage.requestID, Stage.securityHeaders]
    ++ (if cfg.rateLimiter.enabled then [Stage.rateLimit] else [])
    ++ (if cfg.metricsEnabled then [Stage.metrics] else [])
    ++ [Stage.logging, Stage.recovery, Stage.timeout]

/-- The Router's full middleware list.  `setupDefaultMiddleware` (run by
`NewApp`) adds the gorilla CORS middleware directly to the Router when CORS
is enabled; `applyMiddleware` (run by `Start`) then appends every
`a.Use`-registered middleware.  gorilla/mux wraps in reverse registration
order, so the FIRST registered middleware is outermost and runs first. -/
def routerMiddlewares (cfg : AppConfig) : List Stage :=
  (if cfg.corsEnabled then [Stage.cors] else []) ++ appMiddlewares cfg

/-- Dispatch from a stage tag to its middleware. -/
def applyStage (cfg : AppConfig) (s : Stage) (next : HandlerM) : HandlerM :=
  match s with
  | .cors => corsMiddleware next
  | .requestID => requestIDMiddleware next
  | .securityHeaders => securityHeadersMiddleware next
  | .rateLimit => rateLimiterMiddleware cfg next
  | .metrics => metricsMiddleware next
  | .logging => logMiddleware next
  | .recovery => recoveryMiddleware cfg next
  | .timeout => timeoutMiddleware next
  | .terminal => next

/-- gorilla/mux `ServeHTTP`: `for i := len(mw)-1; i >= 0; i-- { handler =
mw[i].Middleware(handler) }`, i.e. a right fold; the head of the list ends
up outermost. -/
def wrapChain (cfg : AppConfig) (mws : List Stage) (h : HandlerM) : HandlerM :=
  mws.foldr (applyStage cfg) h

/-- Serve one request through the assembled default chain down to the
registered route handler, starting from the server's unwrapped writer. -/
def serveRequest (cfg : AppConfig) (biz : BizHandler) (r : Request) (st : SysState) : HResult :=
  wrapChain cfg (routerMiddlewares cfg) (terminalHandler cfg biz) r WShape.base st respInit

/-- The rate-limit gate's admission decision for a request, as computed by
`rateLimiterMiddleware` before its deny branch. -/
def gateAdmits (cfg : AppConfig) (reg : RegState) (r : Request) : Bool :=
  if ¬cfg.rateLimiter.enabled then true
  else
    let clientID := getClientIdentifier cfg r
    if clientID = "" ∧ cfg.rateLimiter.strategy ≠ "global" then true
    else (allowAt (getLimiter cfg.rateLimiter r.now reg clientID).2 clientID).1

/-- The default configuration (`cmd/server.go` / struct defaults): info log
level, metrics, CORS and the ip-strategy rate limiter all enabled. -/
def cfgDefault : AppConfig :=
  { logLevel := "info", metricsEnabled := true, corsEnabled := true, rateLimiter := cfgIpLimiter }

/-- Same as `cfgDefault` but with burst 1, so the second immediate request
from one client is denied. -/
def cfgBurst1 : AppConfig :=
  { logLevel := "info", metricsEnabled := true, corsEnabled := true,
    rateLimiter :=
      { enabled := true, requestsPerS := 10, burst := 1, ttl := 3600, strategy := "ip" } }

/-- Same as `cfgDefault` but with burst 0, so the very first request from any
client is denied. -/
def cfgBurst0 : AppConfig :=
  { logLevel := "info", metricsEnabled := true, corsEnabled := true,
    rateLimiter :=
      { enabled := true, requestsPerS := 10, burst := 0, ttl := 3600, strategy := "ip" } }

/-- Per-credential-token strategy with burst 0: any bucket that is actually
consulted denies its first request. -/
def cfgTokenBurst0 : AppConfig :=
  { logLevel := "info", metricsEnabled := true, corsEnabled := true,
    rateLimiter :=
      { enabled := true, requestsPerS := 10, burst := 0, ttl := 3600, strategy := "token" } }

/-- A plain request: no forwarded-for header, no credential header. -/
def reqIp : Request :=
  { forwardedFor := "", remoteAddr := "10.0.0.1:9000", authorization := "",
    path := "/register", now := 0, ctx := [] }

/-- A business handler that succeeds. -/
def bizOk : BizHandler := fun _ => BizResult.ok

/-- A business handler that fails with the shared `micro.ErrInternalServer`
sentinel, as the service layer does on internal failures. -/
def bizSentinel : BizHandler := fun _ => BizResult.fail (GoErr.api errInternalServerRef)

/-- A `GoErr` whose `*APIError` pointer (if any) is live in the heap; every
error the program constructs satisfies this. -/
def errRefValid (h : Heap) : GoErr → Prop
  | .api p => p < h.length
  | .plain _ => True

/-- A handler that appends exactly `ts` to the ghost stage trace, leaves the
handler-invocation observation to its stages, on every input. -/
def AppendsTrace (hd : HandlerM) (ts : List Stage) : Prop :=
  ∀ r w st resp, (hd r w st resp).1.trace = st.trace ++ ts

def PreservesPending (hd : HandlerM) : Prop :=
  ∀ r w st resp, (hd r w st resp).1.pending = st.pending

/-! ## Theorems -/

theorem lookupKey_eq_none_iff {α : Type} (k : String) (l : List (String × α)) :
    lookupKey k l = none ↔ k ∉ l.map Prod.fst := by
  induction l with
  | nil => simp [lookupKey]
  | cons hd tl ih =>
      obtain ⟨k', v⟩ := hd
      by_cases h : k' = k
      · simp [lookupKey, h]
      · simp only [lookupKey, if_neg h, List.map_cons, List.mem_cons, ih]
        constructor
        · rintro hn (h1 | h2)
          · exact h h1.symm
          · exact hn h2
        · intro hn h2
          exact hn (Or.inr h2)

theorem map_fst_updateKey {α : Type} (k : String) (f : α → α) (l : List (String × α)) :
    (updateKey k f l).map Prod.fst = l.map Prod.fst := by
  induction l with
  | nil => rfl
  | cons hd tl ih =>
      obtain ⟨k', v⟩ := hd
      by_cases h : k' = k <;> simp [updateKey, h, ih]

theorem lookupKey_updateKey_self {α : Type} (k : String) (f : α → α) (l : List (String × α)) :
    lookupKey k (updateKey k f l) = (lookupKey k l).map f := by
  induction l with
  | nil => rfl
  | cons hd tl ih =>
      obtain ⟨k', v⟩ := hd
      by_cases h : k' = k <;> simp [updateKey, lookupKey, h, ih]

theorem lookupKey_updateKey_ne {α : Type} (k k' : String) (f : α → α) (l : List (String × α))
    (h : k ≠ k') :
    lookupKey k (updateKey k' f l) = lookupKey k l := by
  induction l with
  | nil => rfl
  | cons hd tl ih =>
      obtain ⟨k₀, v⟩ := hd
      by_cases h0 : k₀ = k'
      · have hk : ¬k₀ = k := fun hh => h (hh.symm.trans h0)
        simp [updateKey, lookupKey, h0, hk, Ne.symm h]
      · by_cases h1 : k₀ = k <;> simp [updateKey, lookupKey, h0, h1, ih, h]

theorem lookupKey_append {α : Type} (k : String) (l₁ l₂ : List (String × α)) :
    lookupKey k (l₁ ++ l₂) =
      match lookupKey k l₁ with
      | some v => some v
      | none => lookupKey k l₂ := by
  induction l₁ with
  | nil => simp [lookupKey]
  | cons hd tl ih =>
      obtain ⟨k', v⟩ := hd
      by_cases h : k' = k <;> simp [lookupKey, h, ih]

/-- After `getLimiter`, `key` is present and stores the limiter whose handle
was returned. -/
theorem getLimiter_lookup_after (cfg : RateLimiterConfig) (now : Int) (rs : RegState)
    (key : String) :
    ∃ b, lookupKey key (getLimiter cfg now rs key).2.buckets = some b ∧
      b.lid = (getLimiter cfg now rs key).1 := by
  unfold getLimiter
  cases h : lookupKey key rs.buckets with
  | none =>
      exact ⟨{ lid := rs.nextId, tokens := cfg.burst, lastSeen := now },
        by simp [lookupKey_append, h, lookupKey], rfl⟩
  | some v =>
      exact ⟨{ v with lastSeen := now }, by simp [lookupKey_updateKey_self, h], rfl⟩

/-- `getLimiter` never changes the identity of a limiter already stored at any
key: it only refreshes `lastSeen` or inserts fresh keys. -/
theorem getLimiter_preserves_lid (cfg : RateLimiterConfig) (now : Int) (rs : RegState)
    (key k : String) (b : Bucket) (hb : lookupKey k rs.buckets = some b) :
    ∃ b', lookupKey k (getLimiter cfg now rs key).2.buckets = some b' ∧ b'.lid = b.lid := by
  unfold getLimiter
  cases h : lookupKey key rs.buckets with
  | none =>
      refine ⟨b, ?_, rfl⟩
      simp [lookupKey_append, hb]
  | some v =>
      by_cases hk : k = key
      · subst hk
        refine ⟨{ b with lastSeen := now }, ?_, rfl⟩
        simp [lookupKey_updateKey_self, hb]
      · exact ⟨b, by simp [lookupKey_updateKey_ne _ _ _ _ hk, hb], rfl⟩

/-- Limiter identities stored in the registry survive any further sequence of
`getLimiter` calls. -/
theorem runGetLimiters_preserves_lid (cfg : RateLimiterConfig)
    (calls : List (String × Int)) (rs : RegState) (k : String) (b : Bucket)
    (hb : lookupKey k rs.buckets = some b) :
    ∃ b', lookupKey k (runGetLimiters cfg rs calls).2.buckets = some b' ∧ b'.lid = b.lid := by
  induction calls generalizing rs b with
  | nil => exact ⟨b, hb, rfl⟩
  | cons c rest ih =>
      obtain ⟨k₁, t₁⟩ := c
      obtain ⟨b₁, hb₁, hl₁⟩ := getLimiter_preserves_lid cfg t₁ rs k₁ k b hb
      obtain ⟨b₂, hb₂, hl₂⟩ := ih _ _ hb₁
      exact ⟨b₂, hb₂, hl₂.trans hl₁⟩

/-- Every call's returned handle equals the limiter identity stored at its key
in the final registry. -/
theorem runGetLimiters_result_lid (cfg : RateLimiterConfig)
    (calls : List (String × Int)) (rs : RegState) (i : Nat) (k : String) (t : Int)
    (hc : calls[i]? = some (k, t)) :
    ∃ n b, (runGetLimiters cfg rs calls).1[i]? = some n ∧
      lookupKey k (runGetLimiters cfg rs calls).2.buckets = some b ∧ b.lid = n := by
  induction calls generalizing rs i with
  | nil => simp at hc
  | cons c rest ih =>
      obtain ⟨k₁, t₁⟩ := c
      cases i with
      | zero =>
          simp only [List.getElem?_cons_zero, Option.some.injEq] at hc
          cases hc
          obtain ⟨b₀, hb₀, hl₀⟩ := getLimiter_lookup_after cfg t rs k
          obtain ⟨b₁, hb₁, hl₁⟩ :=
            runGetLimiters_preserves_lid cfg rest (getLimiter cfg t rs k).2 k b₀ hb₀
          exact ⟨(getLimiter cfg t rs k).1, b₁, by simp [runGetLimiters], hb₁,
            hl₁.trans hl₀⟩
      | succ j =>
          simp only [List.getElem?_cons_succ] at hc
          obtain ⟨n, b, hn, hb, hl⟩ := ih (getLimiter cfg t₁ rs k₁).2 j hc
          exact ⟨n, b, by simpa [runGetLimiters] using hn, hb, hl⟩

/-- `getLimiter` keeps the map keys duplicate-free. -/
theorem getLimiter_nodup (cfg : RateLimiterConfig) (now : Int) (rs : RegState) (key : String)
    (h : (rs.buckets.map Prod.fst).Nodup) :
    (((getLimiter cfg now rs key).2).buckets.map Prod.fst).Nodup := by
  unfold getLimiter
  cases hl : lookupKey key rs.buckets with
  | none =>
      have hk : key ∉ rs.buckets.map Prod.fst := (lookupKey_eq_none_iff key rs.buckets).mp hl
      simp only [List.map_append, List.map_cons, List.map_nil]
      exact List.Nodup.append h (List.nodup_singleton key)
        (by simpa [List.disjoint_singleton] using hk)
  | some v => simpa [map_fst_updateKey] using h

/-- A whole run of `getLimiter` calls keeps the map keys duplicate-free. -/
theorem runGetLimiters_nodup (cfg : RateLimiterConfig) (calls : List (String × Int))
    (rs : RegState) (h : (rs.buckets.map Prod.fst).Nodup) :
    (((runGetLimiters cfg rs calls).2).buckets.map Prod.fst).Nodup := by
  induction calls generalizing rs with
  | nil => exact h
  | cons c rest ih =>
      obtain ⟨k₁, t₁⟩ := c
      exact ih _ (getLimiter_nodup cfg t₁ rs k₁ h)

/-- C5: for every key and every sequence of `getLimiter` (Acquire) calls on the
registry, all calls with the same key return a handle to the same underlying
bucket object as the first call for that key, and the registry never holds
more than one bucket per distinct key. -/
theorem getLimiter_singleton_per_key (cfg : RateLimiterConfig) (calls : List (String × Int))
    (i j : Nat) (k : String) (ti tj : Int)
    (hi : calls[i]? = some (k, ti)) (hj : calls[j]? = some (k, tj)) :
    (runGetLimiters cfg regInit calls).1[i]? = (runGetLimiters cfg regInit calls).1[j]? ∧
    (((runGetLimiters cfg regInit calls).2).buckets.map Prod.fst).Nodup := by
  obtain ⟨n₁, b₁, hn₁, hb₁, hl₁⟩ := runGetLimiters_result_lid cfg calls regInit i k ti hi
  obtain ⟨n₂, b₂, hn₂, hb₂, hl₂⟩ := runGetLimiters_result_lid cfg calls regInit j k tj hj
  have hb : b₁ = b₂ := Option.some.inj (hb₁.symm.trans hb₂)
  refine ⟨?_, runGetLimiters_nodup cfg calls regInit (by simp [regInit])⟩
  rw [hn₁, hn₂, ← hl₁, ← hl₂, hb]

theorem getLimiter_singleton_per_key_witness :
    (runGetLimiters cfgIpLimiter regInit [("a", 0), ("b", 1), ("a", 5)]).1[0]? =
      (runGetLimiters cfgIpLimiter regInit [("a", 0), ("b", 1), ("a", 5)]).1[2]? ∧
    (((runGetLimiters cfgIpLimiter regInit [("a", 0), ("b", 1), ("a", 5)]).2).buckets.map
        Prod.fst).Nodup :=
  getLimiter_singleton_per_key _ _ 0 2 "a" 0 5 rfl rfl

theorem sweepOnce_cons (ttl now : Int) (k' : String) (b : Bucket)
    (tl : List (String × Bucket)) :
    sweepOnce ttl now ((k', b) :: tl) =
      if now - b.lastSeen > ttl then sweepOnce ttl now tl
      else (k', b) :: sweepOnce ttl now tl := by
  by_cases hev : now - b.lastSeen > ttl <;> simp [sweepOnce, List.filter_cons, hev] <;> omega

/-- C6: after one evictor sweep, a key is present in the registry iff its idle
time (sweep time minus `lastSeen`) does not exceed `ttl`: every entry idle
longer than `ttl` is removed and every other entry is left unchanged. -/
theorem sweepOnce_spec (ttl now : Int) (buckets : List (String × Bucket))
    (hnd : (buckets.map Prod.fst).Nodup) (k : String) :
    lookupKey k (sweepOnce ttl now buckets) =
      match lookupKey k buckets with
      | some b => if now - b.lastSeen > ttl then none else some b
      | none => none := by
  induction buckets with
  | nil => rfl
  | cons hd tl ih =>
      obtain ⟨k', b⟩ := hd
      simp only [List.map_cons, List.nodup_cons] at hnd
      obtain ⟨hk', htl⟩ := hnd
      rw [sweepOnce_cons]
      by_cases hev : now - b.lastSeen > ttl
      · rw [if_pos hev]
        by_cases h : k' = k
        · subst h
          have hnone : lookupKey k' (sweepOnce ttl now tl) = none := by
            rw [lookupKey_eq_none_iff]
            intro hmem
            obtain ⟨⟨a, b'⟩, hab, ha⟩ := List.mem_map.mp hmem
            exact hk' (List.mem_map.mpr ⟨(a, b'), (List.mem_filter.mp hab).1, ha⟩)
          simp [lookupKey, hnone, hev]
        · simp [lookupKey, h, ih htl]
      · rw [if_neg hev]
        by_cases h : k' = k
        · subst h
          simp [lookupKey, hev]
        · simp [lookupKey, h, ih htl]

theorem sweepOnce_spec_witness :
    (lookupKey "stale" (sweepOnce 3600 10000
        [("stale", { lid := 0, tokens := 5, lastSeen := 6340 }),
         ("fresh", { lid := 1, tokens := 5, lastSeen := 6460 })]) = none) ∧
    (lookupKey "fresh" (sweepOnce 3600 10000
        [("stale", { lid := 0, tokens := 5, lastSeen := 6340 }),
         ("fresh", { lid := 1, tokens := 5, lastSeen := 6460 })]) =
      some { lid := 1, tokens := 5, lastSeen := 6460 }) := by
  have h1 := sweepOnce_spec 3600 10000
    [("stale", { lid := 0, tokens := 5, lastSeen := 6340 }),
     ("fresh", { lid := 1, tokens := 5, lastSeen := 6460 })] (by decide) "stale"
  have h2 := sweepOnce_spec 3600 10000
    [("stale", { lid := 0, tokens := 5, lastSeen := 6340 }),
     ("fresh", { lid := 1, tokens := 5, lastSeen := 6460 })] (by decide) "fresh"
  refine ⟨?_, ?_⟩
  · rw [h1]; decide
  · rw [h2]; decide

theorem heapModify_length (h : Heap) (ref : Nat) (f : APIError → APIError) :
    (heapModify h ref f).length = h.length := by
  unfold heapModify
  cases hr : h[ref]? with
  | none => rfl
  | some e => simp

theorem heapGet_heapModify (h : Heap) (ref : Nat) (f : APIError → APIError)
    (href : ref < h.length) :
    heapGet (heapModify h ref f) ref = f (heapGet h ref) := by
  unfold heapModify heapGet
  rw [List.getElem?_eq_getElem href]
  simp [List.getElem?_set_self', List.getElem?_eq_getElem href]

/-- C9: whenever the configured log level is not `"debug"`, the normalized
error has its `Details` field removed — for EVERY error value, including 4xx
client errors with caller-attached details, not only internal faults. -/
theorem normalizeError_strips_details (logLevel : String) (h : Heap) (err : GoErr)
    (rid : String) (hlev : logLevel ≠ "debug") (href : errRefValid h err) :
    (heapGet (normalizeError logLevel h err rid).1
      (normalizeError logLevel h err rid).2).details = none := by
  cases err with
  | api p =>
      have hp : p < h.length := href
      simp only [normalizeError]
      rw [heapGet_heapModify _ _ _ hp]
      simp [hlev]
  | plain m =>
      simp only [normalizeError, newAPIError]
      rw [heapGet_heapModify _ _ _ (by simp)]
      simp [hlev]

theorem normalizeError_strips_details_witness :
    (heapGet (normalizeError "info"
        [{ code := 400, message := "validation failed",
           details := some [("Email", "email")], requestID := "" }]
        (GoErr.api 0) "r1").1
      (normalizeError "info"
        [{ code := 400, message := "validation failed",
           details := some [("Email", "email")], requestID := "" }]
        (GoErr.api 0) "r1").2).details = none :=
  normalizeError_strips_details "info"
    [{ code := 400, message := "validation failed",
       details := some [("Email", "email")], requestID := "" }]
    (GoErr.api 0) "r1" (by decide) (by simp [errRefValid])

/-- C10: `normalizeError` returns the very `*APIError` it resolved, mutating
it in place; handling the shared `ErrInternalServer` sentinel twice in a row
leaves the second request's id in the sentinel's `RequestID` field — global
state observable by later requests returning the same sentinel. -/
theorem normalizeError_mutates_in_place (logLevel : String) (h : Heap) (p : Nat)
    (rid1 rid2 : String) (hp : p < h.length) :
    (normalizeError logLevel h (GoErr.api p) rid1).2 = p ∧
    (heapGet (normalizeError logLevel
        (normalizeError logLevel h (GoErr.api p) rid1).1 (GoErr.api p) rid2).1 p).requestID
      = rid2 := by
  refine ⟨rfl, ?_⟩
  simp only [normalizeError]
  rw [heapGet_heapModify _ _ _ (by rw [heapModify_length]; exact hp)]
  by_cases hd : logLevel ≠ "debug" <;> simp [hd]

theorem normalizeError_mutates_in_place_witness :
    (normalizeError "info" heapInit (GoErr.api errInternalServerRef) "rid0").2
      = errInternalServerRef ∧
    (heapGet (normalizeError "info"
        (normalizeError "info" heapInit (GoErr.api errInternalServerRef) "rid0").1
        (GoErr.api errInternalServerRef) "rid1").1 errInternalServerRef).requestID
      = "rid1" :=
  normalizeError_mutates_in_place "info" heapInit errInternalServerRef "rid0" "rid1"
    (by decide)

/-- C1 (code bug): a request denied by the rate-limit gate does NOT receive
the documented 429 admission-denied response.  The gate runs before the
metrics/logging middlewares wrap the writer, so when its deny branch calls
`JSONError → handleError`, `getRequestIDFromContext` hits the blind type
assertion `w.(*loggingResponseWriter)` on the server's unwrapped writer and
panics.  Concretely: under burst 1, the second immediate request from the
same client is denied; the serve ends in an in-flight panic, with no status
and no JSON body ever written (the `Retry-After` header was set on the
header map but never flushed). -/
theorem deny_response_never_written :
    ((serveRequest cfgBurst1 bizOk reqIp
        (serveRequest cfgBurst1 bizOk reqIp stInit).1).2.2).isSome = true ∧
    (serveRequest cfgBurst1 bizOk reqIp
        (serveRequest cfgBurst1 bizOk reqIp stInit).1).2.1.status = none ∧
    (serveRequest cfgBurst1 bizOk reqIp
        (serveRequest cfgBurst1 bizOk reqIp stInit).1).2.1.body = none := by
  decide

/-- C4 (code bug): for a request whose handler returns an error, the
`X-Request-ID` response header carries the generated id but the JSON error
body does NOT: `requestIDMiddleware` stores the id under the typed key
`contextKey("request_id")` while `getRequestIDFromContext` queries the
untyped string key `"request_id"`, so the body's `request_id` is empty and —
being `omitempty` — omitted entirely. -/
theorem error_body_request_id_mismatch :
    lookupKey "X-Request-ID" (serveRequest cfgDefault bizSentinel reqIp stInit).2.1.headers
      = some "rid0" ∧
    ((serveRequest cfgDefault bizSentinel reqIp stInit).2.1.body.map
      ErrorBodyJSON.request_id) = some none := by
  decide

/-- C7 counterexample: under the per-credential-token strategy with burst 0
(any consulted bucket denies) a request with an EMPTY `Authorization` header
is admitted, the terminal handler runs, and the registry ends up with no
bucket at all — so the gate did not consult (or even create) an
empty-string-keyed bucket, contradicting the claim that such requests are
still rate-limited through an unauthenticated bucket. -/
theorem empty_token_not_limited :
    (serveRequest cfgTokenBurst0 bizOk reqIp stInit).1.handlerCalls = 1 ∧
    (serveRequest cfgTokenBurst0 bizOk reqIp stInit).1.reg.buckets = [] ∧
    (serveRequest cfgTokenBurst0 bizOk reqIp stInit).2.2 = none := by
  decide

/-- C7 amended: under the token strategy, a request with an empty credential
header bypasses the rate-limit gate entirely: the middleware passes it to
the next stage untouched, never consulting or creating any bucket. -/
theorem gate_empty_token_bypasses (cfg : AppConfig) (next : HandlerM) (r : Request)
    (w : WShape) (st : SysState) (resp : Resp)
    (hstrat : cfg.rateLimiter.strategy = "token") (hauth : r.authorization = "") :
    rateLimiterMiddleware cfg next r w st resp = next r w (tagStage Stage.rateLimit st) resp := by
  simp [rateLimiterMiddleware, getClientIdentifier, hstrat, hauth]

theorem gate_empty_token_bypasses_witness :
    rateLimiterMiddleware cfgTokenBurst0 (terminalHandler cfgTokenBurst0 bizOk) reqIp
        WShape.base stInit respInit =
      terminalHandler cfgTokenBurst0 bizOk reqIp WShape.base
        (tagStage Stage.rateLimit stInit) respInit :=
  gate_empty_token_bypasses cfgTokenBurst0 (terminalHandler cfgTokenBurst0 bizOk) reqIp
    WShape.base stInit respInit rfl rfl

/-- C8 counterexample: serving an accepted request never increments the
pending-request count: the terminal handler observes the `App.wg` counter
still at 0 (the claim's increment-before-entering would make it at least 1),
because no code path in the repository ever calls `wg.Add`/`wg.Done` on the
App's wait group. -/
theorem pending_count_never_incremented :
    (serveRequest cfgDefault bizOk reqIp stInit).1.pendingAtHandler = some 0 ∧
    (serveRequest cfgDefault bizOk reqIp stInit).1.pending = 0 ∧
    (serveRequest cfgDefault bizOk reqIp stInit).1.handlerCalls = 1 := by
  decide

@[simp] theorem tagStage_reg (s : Stage) (st : SysState) : (tagStage s st).reg = st.reg := rfl

@[simp] theorem tagStage_heap (s : Stage) (st : SysState) : (tagStage s st).heap = st.heap := rfl

@[simp] theorem tagStage_handlerCalls (s : Stage) (st : SysState) :
    (tagStage s st).handlerCalls = st.handlerCalls := rfl

@[simp] theorem tagStage_pending (s : Stage) (st : SysState) :
    (tagStage s st).pending = st.pending := rfl

@[simp] theorem tagStage_trace (s : Stage) (st : SysState) :
    (tagStage s st).trace = st.trace ++ [s] := rfl

theorem appendsTrace_terminal (cfg : AppConfig) (biz : BizHandler) :
    AppendsTrace (terminalHandler cfg biz) [Stage.terminal] := by
  intro r w st resp
  simp only [terminalHandler]
  split <;> try split
  all_goals simp

theorem appendsTrace_cors (next : HandlerM) (ts : List Stage)
    (hnext : AppendsTrace next ts) :
    AppendsTrace (corsMiddleware next) (Stage.cors :: ts) := by
  intro r w st resp
  simp only [corsMiddleware]
  rw [hnext]
  simp

theorem appendsTrace_requestID (next : HandlerM) (ts : List Stage)
    (hnext : AppendsTrace next ts) :
    AppendsTrace (requestIDMiddleware next) (Stage.requestID :: ts) := by
  intro r w st resp
  simp only [requestIDMiddleware]
  rw [hnext]
  simp [genRequestID]

theorem appendsTrace_securityHeaders (next : HandlerM) (ts : List Stage)
    (hnext : AppendsTrace next ts) :
    AppendsTrace (securityHeadersMiddleware next) (Stage.securityHeaders :: ts) := by
  intro r w st resp
  simp only [securityHeadersMiddleware]
  rw [hnext]
  simp

theorem appendsTrace_metrics (next : HandlerM) (ts : List Stage)
    (hnext : AppendsTrace next ts) :
    AppendsTrace (metricsMiddleware next) (Stage.metrics :: ts) := by
  intro r w st resp
  simp only [metricsMiddleware]
  rw [hnext]
  simp

theorem appendsTrace_logging (next : HandlerM) (ts : List Stage)
    (hnext : AppendsTrace next ts) :
    AppendsTrace (logMiddleware next) (Stage.logging :: ts) := by
  intro r w st resp
  simp only [logMiddleware]
  rw [hnext]
  simp

theorem appendsTrace_timeout (next : HandlerM) (ts : List Stage)
    (hnext : AppendsTrace next ts) :
    AppendsTrace (timeoutMiddleware next) (Stage.timeout :: ts) := by
  intro r w st resp
  simp only [timeoutMiddleware]
  rw [hnext]
  simp

theorem appendsTrace_recovery (cfg : AppConfig) (next : HandlerM) (ts : List Stage)
    (hnext : AppendsTrace next ts) :
    AppendsTrace (recoveryMiddleware cfg next) (Stage.recovery :: ts) := by
  intro r w st resp
  simp only [recoveryMiddleware]
  split <;> try split <;> try split
  all_goals (rw [hnext]; simp)

/-- On admission (pass-through for any reason), the gate appends its own tag
and hands over to the rest of the chain. -/
theorem gate_admit_trace (cfg : AppConfig) (next : HandlerM) (r : Request) (w : WShape)
    (st : SysState) (resp : Resp) (ts : List Stage)
    (hnext : AppendsTrace next ts)
    (hpass : gateAdmits cfg st.reg r = true) :
    (rateLimiterMiddleware cfg next r w st resp).1.trace =
      st.trace ++ Stage.rateLimit :: ts := by
  unfold gateAdmits at hpass
  simp only [rateLimiterMiddleware, tagStage_reg]
  by_cases hen : ¬(cfg.rateLimiter.enabled = true)
  · rw [if_pos hen]
    rw [hnext]
    simp
  · rw [if_neg hen] at hpass ⊢
    by_cases hskip : getClientIdentifier cfg r = "" ∧ cfg.rateLimiter.strategy ≠ "global"
    · rw [if_pos hskip]
      rw [hnext]
      simp
    · rw [if_neg hskip] at hpass ⊢
      rw [if_pos hpass]
      rw [hnext]
      simp

/-- On denial the gate halts: whatever the downstream chain is, it is never
invoked; the trace ends at the gate and the state's handler-invocation count
is untouched. -/
theorem gate_deny_result (cfg : AppConfig) (next : HandlerM) (r : Request) (w : WShape)
    (st : SysState) (resp : Resp)
    (hrl : cfg.rateLimiter.enabled = true)
    (hdeny : gateAdmits cfg st.reg r = false) :
    (rateLimiterMiddleware cfg next r w st resp).1.trace = st.trace ++ [Stage.rateLimit] ∧
    (rateLimiterMiddleware cfg next r w st resp).1.handlerCalls = st.handlerCalls := by
  unfold gateAdmits at hdeny
  simp only [rateLimiterMiddleware, tagStage_reg]
  have hen : ¬¬(cfg.rateLimiter.enabled = true) := by simp [hrl]
  rw [if_neg hen] at hdeny ⊢
  by_cases hskip : getClientIdentifier cfg r = "" ∧ cfg.rateLimiter.strategy ≠ "global"
  · rw [if_pos hskip] at hdeny
    exact absurd hdeny (by simp)
  · rw [if_neg hskip] at hdeny ⊢
    rw [if_neg (by simp [hdeny])]
    constructor <;> (split <;> try split) <;> simp

/-- C2: for every request the rate-limit gate denies, the chain halts at the
gate: no stage positioned after the gate runs and the terminal handler is
never invoked — its invocation count is unchanged by the denied request. -/
theorem rate_gate_halts (cfg : AppConfig) (biz : BizHandler) (r : Request) (st : SysState)
    (hrl : cfg.rateLimiter.enabled = true)
    (hdeny : gateAdmits cfg st.reg r = false) :
    (serveRequest cfg biz r st).1.handlerCalls = st.handlerCalls ∧
    (serveRequest cfg biz r st).1.trace =
      st.trace ++ (if cfg.corsEnabled then [Stage.cors] else [])
        ++ [Stage.requestID, Stage.securityHeaders, Stage.rateLimit] := by
  cases hc : cfg.corsEnabled with
  | false =>
      simp only [serveRequest, wrapChain, routerMiddlewares, appMiddlewares, hrl, hc,
        Bool.false_eq_true, if_false, if_true, List.nil_append, List.cons_append,
        List.append_assoc, List.foldr_append, List.foldr_cons, List.foldr_nil,
        applyStage]
      simp only [requestIDMiddleware, securityHeadersMiddleware]
      have hdeny2 : gateAdmits cfg (tagStage Stage.securityHeaders (genRequestID (tagStage Stage.requestID st)).2).reg { r with ctx := ctxWithValue r.ctx contextKeyRequestID (genRequestID (tagStage Stage.requestID st)).1 } = false := hdeny
      constructor
      · rw [(gate_deny_result cfg _ _ _ _ _ hrl hdeny2).2]
        simp [genRequestID]
      · rw [(gate_deny_result cfg _ _ _ _ _ hrl hdeny2).1]
        simp [genRequestID]
  | true =>
      simp only [serveRequest, wrapChain, routerMiddlewares, appMiddlewares, hrl, hc,
        Bool.false_eq_true, if_false, if_true, List.nil_append, List.cons_append,
        List.append_assoc, List.foldr_append, List.foldr_cons, List.foldr_nil,
        applyStage]
      simp only [corsMiddleware, requestIDMiddleware, securityHeadersMiddleware]
      have hdeny2 : gateAdmits cfg (tagStage Stage.securityHeaders (genRequestID (tagStage Stage.requestID (tagStage Stage.cors st))).2).reg { r with ctx := ctxWithValue r.ctx contextKeyRequestID (genRequestID (tagStage Stage.requestID (tagStage Stage.cors st))).1 } = false := hdeny
      constructor
      · rw [(gate_deny_result cfg _ _ _ _ _ hrl hdeny2).2]
        simp [genRequestID]
      · rw [(gate_deny_result cfg _ _ _ _ _ hrl hdeny2).1]
        simp [genRequestID]

/-- C3 amended: the default chain executes its stages in the fixed order
cross-origin policy FIRST (outermost — gorilla/mux runs the first-registered
middleware first, and `setupDefaultMiddleware` registers CORS on the Router
before `applyMiddleware` appends the `a.Use` chain at `Start`), then
request-id assignment, security headers, rate-limit gate, metrics capture,
structured logging, panic recovery and deadline enforcement last (innermost,
closest to the terminal handler). -/
theorem chain_order_cors_first (cfg : AppConfig) (biz : BizHandler) (r : Request) (st : SysState)
    (hc : cfg.corsEnabled = true) (hrl : cfg.rateLimiter.enabled = true)
    (hm : cfg.metricsEnabled = true)
    (hpass : gateAdmits cfg st.reg r = true) :
    (serveRequest cfg biz r st).1.trace =
      st.trace ++ [Stage.cors, Stage.requestID, Stage.securityHeaders, Stage.rateLimit,
        Stage.metrics, Stage.logging, Stage.recovery, Stage.timeout, Stage.terminal] := by
  have hrest : AppendsTrace (metricsMiddleware (logMiddleware (recoveryMiddleware cfg
      (timeoutMiddleware (terminalHandler cfg biz)))))
      [Stage.metrics, Stage.logging, Stage.recovery, Stage.timeout, Stage.terminal] :=
    appendsTrace_metrics _ _ (appendsTrace_logging _ _ (appendsTrace_recovery cfg _ _
      (appendsTrace_timeout _ _ (appendsTrace_terminal cfg biz))))
  simp only [serveRequest, wrapChain, routerMiddlewares, appMiddlewares, hrl, hc, hm,
    Bool.false_eq_true, if_false, if_true, List.nil_append, List.cons_append,
    List.append_assoc, List.foldr_append, List.foldr_cons, List.foldr_nil,
    applyStage]
  simp only [corsMiddleware, requestIDMiddleware, securityHeadersMiddleware]
  have hpass2 : gateAdmits cfg (tagStage Stage.securityHeaders (genRequestID (tagStage Stage.requestID (tagStage Stage.cors st))).2).reg { r with ctx := ctxWithValue r.ctx contextKeyRequestID (genRequestID (tagStage Stage.requestID (tagStage Stage.cors st))).1 } = true := hpass
  rw [gate_admit_trace cfg _ _ _ _ _ _ hrest hpass2]
  simp [genRequestID]

/-- C3 counterexample: at the default all-enabled configuration the observed
stage order is NOT the claimed one (request-id first … CORS last); CORS runs
first, not last. -/
theorem chain_order_claim_false :
    (serveRequest cfgDefault bizOk reqIp stInit).1.trace ≠
      [Stage.requestID, Stage.securityHeaders, Stage.rateLimit, Stage.metrics,
       Stage.logging, Stage.recovery, Stage.timeout, Stage.cors, Stage.terminal] ∧
    (serveRequest cfgDefault bizOk reqIp stInit).1.trace =
      [Stage.cors, Stage.requestID, Stage.securityHeaders, Stage.rateLimit,
       Stage.metrics, Stage.logging, Stage.recovery, Stage.timeout, Stage.terminal] := by
  decide

theorem chain_order_cors_first_witness :
    (serveRequest cfgDefault bizOk reqIp stInit).1.trace =
      [Stage.cors, Stage.requestID, Stage.securityHeaders, Stage.rateLimit,
       Stage.metrics, Stage.logging, Stage.recovery, Stage.timeout, Stage.terminal] := by
  simpa [stInit] using chain_order_cors_first cfgDefault bizOk reqIp stInit rfl rfl rfl
    (by decide)

theorem rate_gate_halts_witness :
    (serveRequest cfgBurst0 bizOk reqIp stInit).1.handlerCalls = 0 ∧
    (serveRequest cfgBurst0 bizOk reqIp stInit).1.trace =
      [Stage.cors, Stage.requestID, Stage.securityHeaders, Stage.rateLimit] := by
  simpa [cfgBurst0, stInit] using rate_gate_halts cfgBurst0 bizOk reqIp stInit rfl (by decide)

theorem preservesPending_terminal (cfg : AppConfig) (biz : BizHandler) :
    PreservesPending (terminalHandler cfg biz) := by
  intro r w st resp
  simp only [terminalHandler]
  split <;> try split
  all_goals simp

theorem preservesPending_applyStage (cfg : AppConfig) (s : Stage) (next : HandlerM)
    (hnext : PreservesPending next) : PreservesPending (applyStage cfg s next) := by
  unfold PreservesPending at hnext
  cases s with
  | cors =>
      intro r w st resp
      simp only [applyStage, corsMiddleware]
      simp [hnext]
  | requestID =>
      intro r w st resp
      simp only [applyStage, requestIDMiddleware]
      simp [hnext, genRequestID]
  | securityHeaders =>
      intro r w st resp
      simp only [applyStage, securityHeadersMiddleware]
      simp [hnext]
  | rateLimit =>
      intro r w st resp
      simp only [applyStage, rateLimiterMiddleware]
      split
      · simp [hnext]
      · split
        · simp [hnext]
        · split
          · simp [hnext]
          · split <;> try split
            all_goals simp
  | metrics =>
      intro r w st resp
      simp only [applyStage, metricsMiddleware]
      simp [hnext]
  | logging =>
      intro r w st resp
      simp only [applyStage, logMiddleware]
      simp [hnext]
  | recovery =>
      intro r w st resp
      simp only [applyStage, recoveryMiddleware]
      split <;> try split <;> try split
      all_goals simp [hnext]
  | timeout =>
      intro r w st resp
      simp only [applyStage, timeoutMiddleware]
      simp [hnext]
  | terminal => exact hnext

theorem preservesPending_wrapChain (cfg : AppConfig) (mws : List Stage) (hd : HandlerM)
    (hh : PreservesPending hd) : PreservesPending (wrapChain cfg mws hd) := by
  induction mws with
  | nil => exact hh
  | cons s rest ih => exact preservesPending_applyStage cfg s _ ih

/-- C8 amended: request processing never touches the pending-request count:
no accepted request increments `App.wg` on entry nor decrements it on
completion (the repository never calls `wg.Add`/`wg.Done` on it), so the
barrier `gracefulShutdown` waits on is always at its initial value and the
wait completes immediately; bounded draining of in-flight requests is done
by `server.Shutdown` under the shutdown timeout instead. -/
theorem serveRequest_preserves_pending (cfg : AppConfig) (biz : BizHandler) (r : Request)
    (st : SysState) :
    (serveRequest cfg biz r st).1.pending = st.pending :=
  preservesPending_wrapChain cfg (routerMiddlewares cfg) (terminalHandler cfg biz)
    (preservesPending_terminal cfg biz) r WShape.base st respInit

end GoMicro
